import Mathlib

/-!
# Verification of the `sturdyc` sharded cache client (`cache.go`)

A shallow embedding of the data model and operations of `cache.go`:
the `Config`/`Client` structures, `New`, `Size`, `Delete`, the eviction
scheduler tick of `startEvictions`, `getShard`, `reportCacheHits` and `set`.

Go `int` and `time.Duration` (an `int64` of nanoseconds) are modelled as
`Int`.  Every division performed by the code (`ttl / numShards`,
`capacity / numShards`) happens only after `validateArgs` has established
that both operands are positive, where Go's truncated division agrees with
Lean's `Int` division, so plain `/` is faithful.

The metrics recorder is a nil-able Go interface; it is modelled as an
`Option Unit` presence flag, and each operation returns, next to its
result, the list of `MetricsEvent`s it reported to the recorder.  Go code
that panics on a bad index (slice indexing, `%` by zero) is modelled with
`Option`: `none` is the panic.

The hash function `xxhash.Sum64String` is external to the repository and
treated by the design as an opaque deterministic `hash(key) -> uint64`;
operations that hash take an explicit `hash : String → Nat` parameter.
-/

set_option autoImplicit false

namespace Sturdyc

/-- Go `time.Duration`: a signed 64-bit count of nanoseconds. -/
abbrev Duration := Int

/-- Modelled from the spec: the `Clock` collaborator is not under `src/`
(only the `Clock` interface is consumed by `cache.go`).  The spec fixes it
as "exposes current time and a recurring-tick primitive"; for the claims
only the current time matters, so a clock is its current time. -/
structure Clock where
  now : Int
deriving DecidableEq, Repr

/-- Modelled from the spec: `NewClock()` builds the default real clock;
its reading is some fixed instant. -/
def NewClock : Clock := ⟨0⟩

/-- One call on the `MetricsRecorder` interface of `cache.go`. -/
inductive MetricsEvent where
  | cacheHit
  | cacheMiss
  | eviction
  | forcedEviction
  | entriesEvicted (n : Nat)
  | shardIndex (i : Nat)
deriving DecidableEq, Repr

/-- The `Config` struct of `cache.go`, restricted to its plain data
fields.  `metricsRecorder MetricsRecorder` is a nil-able interface,
modelled as an `Option Unit` presence flag.  The `sync.Mutex`, the two
buffering maps/channels and the `getSize` callback carry no data the
claims touch and are not representable as plain data; they are elided. -/
structure Config where
  clock : Clock
  evictionInterval : Duration
  metricsRecorder : Option Unit := none
  refreshesEnabled : Bool := false
  minRefreshTime : Duration := 0
  maxRefreshTime : Duration := 0
  retryBaseDelay : Duration := 0
  storeMisses : Bool := false
  bufferRefreshes : Bool := false
  batchSize : Int := 0
  bufferTimeout : Duration := 0
  passthroughPercentage : Int
  passthroughBuffering : Bool := false
  useRelativeTimeKeyFormat : Bool := false
  keyTruncation : Duration := 0
deriving DecidableEq, Repr

/-- An `Entry`: value, negative-result flag and derived expiry
(creation time + TTL), as in the spec's data model. -/
structure Entry (T : Type) where
  value : T
  isMissingRecord : Bool
  expiresAt : Int
deriving DecidableEq, Repr

/-- Modelled from the spec: the `shard` type is not under `src/` (only its
callers in `cache.go` are).  Per the spec a shard is a mapping from string
key to entry with a capacity bound, an eviction percentage, a TTL and the
shared configuration. -/
structure Shard (T : Type) where
  capacity : Int
  ttl : Duration
  evictionPercentage : Int
  cfg : Config
  entries : List (String × Entry T)
deriving DecidableEq, Repr

/-- Modelled from the spec: `newShard` is not under `src/`.  A shard is
"created once at cache construction", empty, with the per-shard capacity,
TTL, eviction percentage and configuration handed to it by `New`. -/
def newShard (T : Type) (capacity : Int) (ttl : Duration)
    (evictionPercentage : Int) (cfg : Config) : Shard T :=
  { capacity := capacity
    ttl := ttl
    evictionPercentage := evictionPercentage
    cfg := cfg
    entries := [] }

/-- Modelled from the spec: `size() -> int` is the current entry count. -/
def Shard.size {T : Type} (s : Shard T) : Nat :=
  s.entries.length

/-- Modelled from the spec: `evictExpired()` "scans for entries whose
expiry has passed and removes them", judged against the injected clock. -/
def Shard.evictExpired {T : Type} (s : Shard T) : Shard T :=
  { s with entries := s.entries.filter fun kv => s.cfg.clock.now < kv.2.expiresAt }

/-- Modelled from the spec: `delete(key)` "removes the entry if present;
no-op otherwise; no error". -/
def Shard.delete {T : Type} (s : Shard T) (key : String) : Shard T :=
  { s with entries := s.entries.filter fun kv => kv.1 ≠ key }

/-- Insertion step of an insertion sort by ascending expiry time. -/
def insertByExpiry {T : Type} (kv : String × Entry T) :
    List (String × Entry T) → List (String × Entry T)
  | [] => [kv]
  | x :: xs =>
    if kv.2.expiresAt ≤ x.2.expiresAt then kv :: x :: xs
    else x :: insertByExpiry kv xs

/-- Insertion sort by ascending expiry time: nearest-to-expiry first. -/
def sortByExpiry {T : Type} : List (String × Entry T) → List (String × Entry T)
  | [] => []
  | x :: xs => insertByExpiry x (sortByExpiry xs)

/-- Modelled from the spec: `set(key, value, isMissingRecord)` of the
shard is not under `src/`.  Per the spec it inserts or overwrites; if the
post-insert size exceeds capacity it performs forced eviction, removing
`evictionPercentage`% of the entries nearest to expiry first, and reports
`ForcedEviction` and `EntriesEvicted(n)`.  Returns whether eviction
fired, next to the events reported. -/
def Shard.set {T : Type} (s : Shard T) (key : String) (value : T)
    (isMissingRecord : Bool) : Shard T × Bool × List MetricsEvent :=
  let entry : Entry T := ⟨value, isMissingRecord, s.cfg.clock.now + s.ttl⟩
  let inserted := (s.entries.filter fun kv => kv.1 ≠ key) ++ [(key, entry)]
  if s.capacity < Int.ofNat inserted.length then
    let n := (Int.ofNat inserted.length * s.evictionPercentage / 100).toNat
    let remaining := (sortByExpiry inserted).drop n
    let events :=
      if s.cfg.metricsRecorder.isSome then
        [MetricsEvent.forcedEviction, MetricsEvent.entriesEvicted n]
      else []
    ({ s with entries := remaining }, true, events)
  else
    ({ s with entries := inserted }, false, [])

/-- The `Client` struct of `cache.go`: embedded `*Config`, TTL, the shard
slice and the round-robin eviction cursor `nextShard`. -/
structure Client (T : Type) where
  cfg : Config
  ttl : Duration
  shards : List (Shard T)
  nextShard : Nat
deriving DecidableEq, Repr

/-- The `Option` functional-option type of the repository
(`func(*Config)`), applied by `New` as `opt(cfg)`.  Named `ConfigOption`
here to avoid clashing with Lean's `Option`. -/
abbrev ConfigOption := Config → Config

/-- `New` applies the supplied options in order to the configuration. -/
def applyOpts (opts : List ConfigOption) (cfg : Config) : Config :=
  opts.foldl (fun c opt => opt c) cfg

/-- Modelled from the spec: `validateArgs` is called by `New` but its body
is not under `src/`.  The spec fixes it: "validates `numShards > 0`,
`ttl > 0`, `0 <= evictionPercentage <= 100`, `capacity >= numShards`
(else fails with a configuration error — fatal at construction)". -/
def validateArgs (capacity numShards : Int) (ttl : Duration)
    (evictionPercentage : Int) : Bool :=
  decide (0 < numShards) && decide (0 < ttl) &&
    decide (0 ≤ evictionPercentage) && decide (evictionPercentage ≤ 100) &&
    decide (numShards ≤ capacity)

/-- The default configuration literal built inside `New`: real clock,
`passthroughPercentage` 100, `evictionInterval = ttl / numShards`; every
other field keeps its Go zero value.  (The `getSize` callback field is
elided, see `Config`.) -/
def defaultConfig (ttl : Duration) (numShards : Int) : Config :=
  { clock := NewClock
    evictionInterval := ttl / numShards
    passthroughPercentage := 100 }

/-- `New` of `cache.go`: validate the arguments (`none` models the fatal
configuration error), build the default configuration, apply the options,
then create `numShards` shards of capacity `capacity / numShards` each
with the resulting configuration, cursor at 0. -/
def New (T : Type) (capacity numShards : Int) (ttl : Duration)
    (evictionPercentage : Int) (opts : List ConfigOption) :
    Option (Client T) :=
  if validateArgs capacity numShards ttl evictionPercentage then
    let cfg := applyOpts opts (defaultConfig ttl numShards)
    let shardSize := capacity / numShards
    let shards := (List.range numShards.toNat).map fun _ =>
      newShard T shardSize ttl evictionPercentage cfg
    some { cfg := cfg, ttl := ttl, shards := shards, nextShard := 0 }
  else none

/-- `Size()` of `cache.go`: a running sum of one `size()` call per shard. -/
def Client.Size {T : Type} (c : Client T) : Nat :=
  c.shards.foldl (fun sum s => sum + s.size) 0

/-- The shard index computed inside `getShard`:
`hash % uint64(len(c.shards))`. -/
def Client.shardIndexOf {T : Type} (c : Client T) (hash : String → Nat)
    (key : String) : Nat :=
  hash key % c.shards.length

/-- `getShard` of `cache.go`: compute `hash(key) mod len(shards)`, report
the chosen index when a recorder is configured, and index the shard
slice (`none` models the out-of-range panic). -/
def Client.getShard {T : Type} (c : Client T) (hash : String → Nat)
    (key : String) : Option (Shard T) × List MetricsEvent :=
  let i := c.shardIndexOf hash key
  let events :=
    if c.cfg.metricsRecorder.isSome then [MetricsEvent.shardIndex i] else []
  (c.shards[i]?, events)

/-- `reportCacheHits` of `cache.go`: nothing on a nil recorder, else
`CacheMiss()` on a miss and `CacheHit()` on a hit. -/
def Client.reportCacheHits {T : Type} (c : Client T) (cacheHit : Bool) :
    List MetricsEvent :=
  match c.cfg.metricsRecorder with
  | none => []
  | some _ => if !cacheHit then [MetricsEvent.cacheMiss] else [MetricsEvent.cacheHit]

/-- One tick of the eviction loop of `startEvictions`: report `Eviction()`
when a recorder is configured, run `evictExpired()` on `shards[nextShard]`
(`none` models the out-of-range panic), advance the cursor to
`(nextShard + 1) % len(shards)`. -/
def Client.evictionTick {T : Type} (c : Client T) :
    Option (Client T × List MetricsEvent) :=
  let events :=
    if c.cfg.metricsRecorder.isSome then [MetricsEvent.eviction] else []
  match c.shards[c.nextShard]? with
  | none => none
  | some s =>
    some ({ c with
              shards := c.shards.set c.nextShard s.evictExpired
              nextShard := (c.nextShard + 1) % c.shards.length },
          events)

/-- `k` consecutive ticks of the eviction loop, also collecting the index
of the shard swept at each tick (the cursor value when the tick ran). -/
def evictionTicks {T : Type} : Client T → Nat → Option (Client T × List Nat)
  | c, 0 => some (c, [])
  | c, k + 1 =>
    match c.evictionTick with
    | none => none
    | some p =>
      match evictionTicks p.1 k with
      | none => none
      | some q => some (q.1, c.nextShard :: q.2)

/-- `Delete` of `cache.go`: route the key through `getShard` (reporting
the shard index as `getShard` does) and delete it on the owning shard. -/
def Client.Delete {T : Type} (c : Client T) (hash : String → Nat)
    (key : String) : Option (Client T × List MetricsEvent) :=
  let i := c.shardIndexOf hash key
  let events :=
    if c.cfg.metricsRecorder.isSome then [MetricsEvent.shardIndex i] else []
  match c.shards[i]? with
  | none => none
  | some s => some ({ c with shards := c.shards.set i (s.delete key) }, events)

/-- `set` of `cache.go`: route the key through `getShard` and delegate to
the owning shard's `set`, propagating its eviction-triggered flag. -/
def Client.set {T : Type} (c : Client T) (hash : String → Nat) (key : String)
    (value : T) (isMissingRecord : Bool) :
    Option (Client T × Bool × List MetricsEvent) :=
  let i := c.shardIndexOf hash key
  let routeEvents :=
    if c.cfg.metricsRecorder.isSome then [MetricsEvent.shardIndex i] else []
  match c.shards[i]? with
  | none => none
  | some s =>
    let r := s.set key value isMissingRecord
    some ({ c with shards := c.shards.set i r.1 }, r.2.1, routeEvents ++ r.2.2)

/-- A functional option installing a metrics recorder (the shape the
repository's metrics option takes on the modelled `Config`). -/
def withMetricsRecorder : ConfigOption := fun cfg =>
  { cfg with metricsRecorder := some () }

/-- A functional option installing a custom clock (the shape the
repository's clock option takes on the modelled `Config`). -/
def withClock (clock : Clock) : ConfigOption := fun cfg =>
  { cfg with clock := clock }

/-- Fallback client for `Option.getD` in the concrete examples below. -/
def emptyClient : Client Nat :=
  { cfg := defaultConfig 100 2, ttl := 100, shards := [], nextShard := 0 }

/-- A concrete client, `New(8, 2, 100, 10)` with a metrics recorder. -/
def sampleClientR : Client Nat :=
  (New Nat 8 2 100 10 [withMetricsRecorder]).getD emptyClient

/-- A concrete client, `New(8, 2, 100, 10)` with no options. -/
def sampleClient : Client Nat :=
  (New Nat 8 2 100 10 []).getD emptyClient

/-- A concrete client, `New(8, 2, 100, 10)` with a custom clock at 7. -/
def sampleClientC : Client Nat :=
  (New Nat 8 2 100 10 [withClock ⟨7⟩]).getD emptyClient

/-! ## Theorems -/

/-- Folding `+ size` over the shard slice sums the shard sizes. -/
theorem foldl_size_eq_sum (T : Type) (l : List (Shard T)) (a : Nat) :
    l.foldl (fun sum s => sum + s.size) a = a + (l.map Shard.size).sum := by
  induction l generalizing a with
  | nil => simp
  | cons x xs ih => simp [List.foldl_cons, ih, Nat.add_assoc]

/-- **C1.** `New(capacity, numShards, ttl, evictionPercentage, ...)`
succeeds exactly when `numShards > 0`, `ttl > 0`,
`0 ≤ evictionPercentage ≤ 100` and `capacity ≥ numShards`; on any tuple
violating one of these bounds it fails fatally and no client is created. -/
theorem C1_new_validates (T : Type) (capacity numShards : Int)
    (ttl : Duration) (evictionPercentage : Int) (opts : List ConfigOption) :
    (New T capacity numShards ttl evictionPercentage opts).isSome ↔
      0 < numShards ∧ 0 < ttl ∧ 0 ≤ evictionPercentage ∧
        evictionPercentage ≤ 100 ∧ numShards ≤ capacity := by
  unfold New
  split
  · next h =>
    simp only [validateArgs, Bool.and_eq_true, decide_eq_true_eq] at h
    simp only [Option.isSome_some, true_iff]
    tauto
  · next h =>
    simp only [validateArgs, Bool.and_eq_true, decide_eq_true_eq] at h
    simp only [Option.isSome_none, false_iff]
    tauto

/-- **C5.** `Size()` returns exactly the sum over all shards of that
shard's `size()`, computed by one `size()` call per shard. -/
theorem C5_size_sums_shards (T : Type) (c : Client T) :
    c.Size = (c.shards.map Shard.size).sum := by
  unfold Client.Size
  rw [foldl_size_eq_sum]
  simp

/-- `New` only ever returns clients with a non-empty shard slice. -/
theorem new_shards_length (T : Type) (capacity numShards : Int)
    (ttl : Duration) (evictionPercentage : Int) (opts : List ConfigOption)
    (cl : Client T)
    (hnew : New T capacity numShards ttl evictionPercentage opts = some cl) :
    cl.shards.length = numShards.toNat ∧ 0 < cl.shards.length := by
  unfold New at hnew
  split at hnew
  · next h =>
    cases hnew
    simp only [validateArgs, Bool.and_eq_true, decide_eq_true_eq] at h
    refine ⟨by simp, ?_⟩
    simp only [Client.shards, List.length_map, List.length_range]
    omega
  · cases hnew

/-- **C3.** Shard routing is a pure function of the key and the shard
count: `getShard` computes `hash(key) mod numShards`, two clients with the
same shard count route the same key identically, and the chosen index is
reported to the metrics recorder when one is configured. -/
theorem C3_getShard_deterministic (T : Type) (c c₂ : Client T)
    (hash : String → Nat) (key : String)
    (hlen : c.shards.length = c₂.shards.length) :
    c.shardIndexOf hash key = hash key % c.shards.length ∧
    c.shardIndexOf hash key = c₂.shardIndexOf hash key ∧
    (c.cfg.metricsRecorder.isSome = true →
      (c.getShard hash key).2 =
        [MetricsEvent.shardIndex (c.shardIndexOf hash key)]) := by
  refine ⟨rfl, ?_, ?_⟩
  · unfold Client.shardIndexOf
    rw [hlen]
  · intro h
    unfold Client.getShard
    simp [h]

/-- Witness for C3 at the concrete clients `sampleClientR`/`sampleClient`
(both have 2 shards) and the hash `fun key => 5`. -/
theorem C3_getShard_deterministic_witness :
    sampleClientR.shardIndexOf (fun _ => 5) "k" =
        5 % sampleClientR.shards.length ∧
    sampleClientR.shardIndexOf (fun _ => 5) "k" =
        sampleClient.shardIndexOf (fun _ => 5) "k" ∧
    (sampleClientR.cfg.metricsRecorder.isSome = true →
      (sampleClientR.getShard (fun _ => 5) "k").2 =
        [MetricsEvent.shardIndex (sampleClientR.shardIndexOf (fun _ => 5) "k")]) :=
  C3_getShard_deterministic Nat sampleClientR sampleClient
    (fun _ => 5) "k" (by decide)

/-- **C4.** Without an interval-overriding option, the eviction scheduler
of the client built by `New` ticks every `ttl / numShards`. -/
theorem C4_default_eviction_interval (T : Type) (capacity numShards : Int)
    (ttl : Duration) (evictionPercentage : Int) (opts : List ConfigOption)
    (cl : Client T)
    (hopts : ∀ cfg, (applyOpts opts cfg).evictionInterval = cfg.evictionInterval)
    (hnew : New T capacity numShards ttl evictionPercentage opts = some cl) :
    cl.cfg.evictionInterval = ttl / numShards := by
  unfold New at hnew
  split at hnew
  · cases hnew
    exact hopts (defaultConfig ttl numShards)
  · cases hnew

/-- Witness for C4: `New(8, 2, 100, 10)` with no options has eviction
interval `100 / 2 = 50`. -/
theorem C4_default_eviction_interval_witness :
    (∀ cfg, (applyOpts [] cfg).evictionInterval = cfg.evictionInterval) ∧
    New Nat 8 2 100 10 [] = some sampleClient ∧
    sampleClient.cfg.evictionInterval = 100 / 2 :=
  ⟨fun _ => rfl, by decide,
    C4_default_eviction_interval Nat 8 2 100 10 [] sampleClient
      (fun _ => rfl) (by decide)⟩

/-- **C6.** With no metrics recorder configured, the eviction tick, shard
routing and hit/miss reporting all skip their metric reports and still
complete normally: the tick still sweeps the cursor shard and advances the
cursor, `getShard` still returns the routed shard, and `reportCacheHits`
is a no-op. -/
theorem C6_nil_recorder_noop (T : Type) (c : Client T)
    (hash : String → Nat) (key : String) (hit : Bool)
    (hnil : c.cfg.metricsRecorder = none)
    (hcur : c.nextShard < c.shards.length) :
    (∃ s, c.shards[c.nextShard]? = some s ∧
      c.evictionTick = some ({ c with
          shards := c.shards.set c.nextShard s.evictExpired
          nextShard := (c.nextShard + 1) % c.shards.length }, [])) ∧
    (c.getShard hash key).2 = [] ∧
    (c.getShard hash key).1 = c.shards[c.shardIndexOf hash key]? ∧
    c.reportCacheHits hit = [] := by
  refine ⟨⟨c.shards[c.nextShard], List.getElem?_eq_getElem hcur, ?_⟩, ?_, rfl, ?_⟩
  · unfold Client.evictionTick
    rw [List.getElem?_eq_getElem hcur]
    simp [hnil]
  · unfold Client.getShard
    simp [hnil]
  · unfold Client.reportCacheHits
    rw [hnil]

/-- Witness for C6 at `sampleClient`, which has no recorder configured. -/
theorem C6_nil_recorder_noop_witness :
    (∃ s, sampleClient.shards[sampleClient.nextShard]? = some s ∧
      sampleClient.evictionTick = some ({ sampleClient with
          shards := sampleClient.shards.set sampleClient.nextShard s.evictExpired
          nextShard :=
            (sampleClient.nextShard + 1) % sampleClient.shards.length }, [])) ∧
    (sampleClient.getShard (fun _ => 5) "k").2 = [] ∧
    (sampleClient.getShard (fun _ => 5) "k").1 =
      sampleClient.shards[sampleClient.shardIndexOf (fun _ => 5) "k"]? ∧
    sampleClient.reportCacheHits true = [] :=
  C6_nil_recorder_noop Nat sampleClient (fun _ => 5) "k" true
    (by decide) (by decide)

/-- **C9.** `New` applies every supplied option to the configuration
before any shard is created: each shard carries the fully customized
configuration, not the defaults. -/
theorem C9_options_before_shards (T : Type) (capacity numShards : Int)
    (ttl : Duration) (evictionPercentage : Int) (opts : List ConfigOption)
    (cl : Client T)
    (hnew : New T capacity numShards ttl evictionPercentage opts = some cl) :
    cl.cfg = applyOpts opts (defaultConfig ttl numShards) ∧
    ∀ s ∈ cl.shards, s.cfg = applyOpts opts (defaultConfig ttl numShards) := by
  unfold New at hnew
  split at hnew
  · cases hnew
    refine ⟨rfl, ?_⟩
    intro s hs
    obtain ⟨-, -, rfl⟩ := List.mem_map.mp hs
    rfl
  · cases hnew

/-- Witness for C9 with a custom-clock option: the shard configuration of
`sampleClientC` carries the custom clock at 7, not the default. -/
theorem C9_options_before_shards_witness :
    New Nat 8 2 100 10 [withClock ⟨7⟩] = some sampleClientC ∧
    (sampleClientC.cfg = applyOpts [withClock ⟨7⟩] (defaultConfig 100 2) ∧
      ∀ s ∈ sampleClientC.shards,
        s.cfg = applyOpts [withClock ⟨7⟩] (defaultConfig 100 2)) ∧
    sampleClientC.cfg.clock = ⟨7⟩ :=
  ⟨by decide,
    C9_options_before_shards Nat 8 2 100 10 [withClock ⟨7⟩] sampleClientC
      (by decide),
    by decide⟩

/-- **C10.** For every client produced by a successful `New` and every
key, the index `hash(key) mod len(shards)` computed in `getShard` is in
bounds, and `getShard` returns one of the client's shards. -/
theorem C10_getShard_in_bounds (T : Type) (capacity numShards : Int)
    (ttl : Duration) (evictionPercentage : Int) (opts : List ConfigOption)
    (cl : Client T) (hash : String → Nat) (key : String)
    (hnew : New T capacity numShards ttl evictionPercentage opts = some cl) :
    cl.shardIndexOf hash key < cl.shards.length ∧
    ∃ s, (cl.getShard hash key).1 = some s ∧ s ∈ cl.shards := by
  obtain ⟨-, hpos⟩ := new_shards_length T capacity numShards ttl
    evictionPercentage opts cl hnew
  have hlt : cl.shardIndexOf hash key < cl.shards.length :=
    Nat.mod_lt _ hpos
  refine ⟨hlt, cl.shards[cl.shardIndexOf hash key], ?_, ?_⟩
  · unfold Client.getShard
    exact List.getElem?_eq_getElem hlt
  · exact cl.shards.getElem_mem hlt

/-- Witness for C10 at `New(8, 2, 100, 10)` and the hash `fun key => 5`. -/
theorem C10_getShard_in_bounds_witness :
    sampleClient.shardIndexOf (fun _ => 5) "k" < sampleClient.shards.length ∧
    ∃ s, (sampleClient.getShard (fun _ => 5) "k").1 = some s ∧
      s ∈ sampleClient.shards :=
  C10_getShard_in_bounds Nat 8 2 100 10 [] sampleClient
    (fun _ => 5) "k" (by decide)

/-- `set` on a shard never changes the shard's capacity bound. -/
theorem shard_set_capacity (T : Type) (s : Shard T) (key : String) (v : T)
    (m : Bool) : (s.set key v m).1.capacity = s.capacity := by
  unfold Shard.set
  dsimp only
  split <;> rfl

/-- Replacing a slot of the shard slice by a shard of equal capacity
leaves the per-shard capacities unchanged. -/
theorem map_capacity_set (T : Type) (l : List (Shard T)) (i : Nat)
    (s s' : Shard T) (hget : l[i]? = some s)
    (hcap : s'.capacity = s.capacity) :
    (l.set i s').map Shard.capacity = l.map Shard.capacity := by
  induction l generalizing i with
  | nil => simp at hget
  | cons x xs ih =>
    cases i with
    | zero =>
      simp only [List.getElem?_cons_zero, Option.some.injEq] at hget
      subst hget
      simp [List.set, hcap]
    | succ n =>
      simp only [List.getElem?_cons_succ] at hget
      simp [List.set, ih n hget]

/-- **C7.** A valid `New(capacity, numShards, ...)` creates exactly
`numShards` shards, each with fixed capacity `capacity / numShards`, and
no operation of the client (eviction tick, `Delete`, `set`) ever changes
the shard count or any shard's capacity. -/
theorem C7_shards_fixed (T : Type) (capacity numShards : Int)
    (ttl : Duration) (evictionPercentage : Int) (opts : List ConfigOption)
    (cl : Client T) (hash : String → Nat)
    (hnew : New T capacity numShards ttl evictionPercentage opts = some cl) :
    cl.shards.length = numShards.toNat ∧
    (∀ s ∈ cl.shards, s.capacity = capacity / numShards) ∧
    (∀ (c c' : Client T) (ev : List MetricsEvent),
      c.evictionTick = some (c', ev) →
        c'.shards.length = c.shards.length ∧
        c'.shards.map Shard.capacity = c.shards.map Shard.capacity) ∧
    (∀ (c c' : Client T) (key : String) (ev : List MetricsEvent),
      c.Delete hash key = some (c', ev) →
        c'.shards.length = c.shards.length ∧
        c'.shards.map Shard.capacity = c.shards.map Shard.capacity) ∧
    (∀ (c c' : Client T) (key : String) (v : T) (m trig : Bool)
        (ev : List MetricsEvent),
      c.set hash key v m = some (c', trig, ev) →
        c'.shards.length = c.shards.length ∧
        c'.shards.map Shard.capacity = c.shards.map Shard.capacity) := by
  refine ⟨(new_shards_length T capacity numShards ttl evictionPercentage
    opts cl hnew).1, ?_, ?_, ?_, ?_⟩
  · unfold New at hnew
    split at hnew
    · cases hnew
      intro s hs
      obtain ⟨-, -, rfl⟩ := List.mem_map.mp hs
      rfl
    · cases hnew
  · intro c c' ev h
    unfold Client.evictionTick at h
    cases hs : c.shards[c.nextShard]? with
    | none =>
      simp only [hs] at h
      exact Option.noConfusion h
    | some s =>
      simp only [hs, Option.some.injEq, Prod.mk.injEq] at h
      obtain ⟨h1, -⟩ := h
      subst h1
      exact ⟨by simp, map_capacity_set T c.shards c.nextShard s
        s.evictExpired hs rfl⟩
  · intro c c' key ev h
    unfold Client.Delete at h
    cases hs : c.shards[c.shardIndexOf hash key]? with
    | none =>
      simp only [hs] at h
      exact Option.noConfusion h
    | some s =>
      simp only [hs, Option.some.injEq, Prod.mk.injEq] at h
      obtain ⟨h1, -⟩ := h
      subst h1
      exact ⟨by simp, map_capacity_set T c.shards _ s (s.delete key) hs rfl⟩
  · intro c c' key v m trig ev h
    unfold Client.set at h
    cases hs : c.shards[c.shardIndexOf hash key]? with
    | none =>
      simp only [hs] at h
      exact Option.noConfusion h
    | some s =>
      simp only [hs, Option.some.injEq, Prod.mk.injEq] at h
      obtain ⟨h1, -⟩ := h
      subst h1
      exact ⟨by simp, map_capacity_set T c.shards _ s
        (s.set key v m).1 hs (shard_set_capacity T s key v m)⟩

/-- Witness for C7 at `New(8, 2, 100, 10)`: the client has 2 shards. -/
theorem C7_shards_fixed_witness :
    sampleClient.shards.length = (2 : Int).toNat :=
  (C7_shards_fixed Nat 8 2 100 10 [] sampleClient (fun _ => 5)
    (by decide)).1

/-- Shifting the start of a round-robin cursor trace by one step. -/
theorem range_map_mod_shift (c₀ n k : Nat) (hc : c₀ < n) :
    c₀ :: ((List.range k).map fun t => ((c₀ + 1) % n + t) % n) =
      (List.range (k + 1)).map fun t => (c₀ + t) % n := by
  rw [List.range_succ_eq_map, List.map_cons, List.map_map]
  congr 1
  · show c₀ = (c₀ + 0) % n
    rw [Nat.add_zero, Nat.mod_eq_of_lt hc]
  · apply List.map_congr_left
    intro t ht
    show ((c₀ + 1) % n + t) % n = (c₀ + Nat.succ t) % n
    rw [Nat.mod_add_mod]
    congr 1
    omega

/-- `k` consecutive ticks from a valid cursor all succeed; the swept
indices are the cursor values `cursor, cursor+1 mod n, …`, the shard
count is preserved and the final cursor is `(cursor + k) mod n`. -/
theorem evictionTicks_trace (T : Type) :
    ∀ (k : Nat) (c : Client T), c.nextShard < c.shards.length →
      ∃ cFin, evictionTicks c k = some (cFin,
          (List.range k).map fun t => (c.nextShard + t) % c.shards.length) ∧
        cFin.shards.length = c.shards.length ∧
        cFin.nextShard = (c.nextShard + k) % c.shards.length := by
  intro k
  induction k with
  | zero =>
    intro c hc
    exact ⟨c, by simp [evictionTicks], rfl, by simp [Nat.mod_eq_of_lt hc]⟩
  | succ k ih =>
    intro c hc
    have hpos : 0 < c.shards.length := Nat.lt_of_le_of_lt (Nat.zero_le _) hc
    have hget : c.shards[c.nextShard]? = some c.shards[c.nextShard] :=
      List.getElem?_eq_getElem hc
    have htick : c.evictionTick = some ({ c with
        shards := c.shards.set c.nextShard
          (Shard.evictExpired c.shards[c.nextShard])
        nextShard := (c.nextShard + 1) % c.shards.length },
      if c.cfg.metricsRecorder.isSome then [MetricsEvent.eviction] else []) := by
      unfold Client.evictionTick
      rw [hget]
    obtain ⟨cFin, htr, hlen, hcur⟩ := ih { c with
        shards := c.shards.set c.nextShard
          (Shard.evictExpired c.shards[c.nextShard])
        nextShard := (c.nextShard + 1) % c.shards.length }
      (by simpa using Nat.mod_lt _ hpos)
    refine ⟨cFin, ?_, ?_, ?_⟩
    · show (match c.evictionTick with
        | none => none
        | some p =>
          match evictionTicks p.1 k with
          | none => none
          | some q => some (q.1, c.nextShard :: q.2)) = _
      rw [htick]
      simp only
      rw [htr]
      simp only [Option.some.injEq, Prod.mk.injEq, true_and]
      simpa using range_map_mod_shift c.nextShard c.shards.length k hc
    · simpa using hlen
    · rw [hcur]
      simp only [List.length_set]
      rw [Nat.mod_add_mod]
      congr 1
      omega

/-- Each shard index in `0..n-1` appears exactly once in the round-robin
cursor trace of `n` consecutive ticks. -/
theorem mod_shift_exists_unique (c₀ n i : Nat) (hc : c₀ < n) (hi : i < n) :
    ∃! t : Nat, ((List.range n).map fun t => (c₀ + t) % n)[t]? = some i := by
  have hpos : 0 < n := Nat.lt_of_le_of_lt (Nat.zero_le _) hc
  have hval : ∀ t, t < n →
      ((List.range n).map fun t => (c₀ + t) % n)[t]? = some ((c₀ + t) % n) := by
    intro t ht
    rw [List.getElem?_map, List.getElem?_range ht]
    rfl
  have hv₀ : (c₀ + (i + n - c₀) % n) % n = i := by
    rw [Nat.add_mod_mod]
    have harg : c₀ + (i + n - c₀) = i + n := by omega
    rw [harg, Nat.add_mod_right, Nat.mod_eq_of_lt hi]
  refine ⟨(i + n - c₀) % n, ?_, ?_⟩
  · show ((List.range n).map fun t => (c₀ + t) % n)[(i + n - c₀) % n]? = some i
    rw [hval _ (Nat.mod_lt _ hpos), hv₀]
  · intro t ht
    have htl : t < n := by
      obtain ⟨hbound, -⟩ := List.getElem?_eq_some.mp ht
      simpa using hbound
    have hv : (c₀ + t) % n = i := by
      rw [hval t htl] at ht
      exact Option.some.inj ht
    have hmod : (c₀ + t) ≡ (c₀ + (i + n - c₀) % n) [MOD n] := by
      unfold Nat.ModEq
      rw [hv, hv₀]
    have hcancel := Nat.ModEq.add_left_cancel' c₀ hmod
    calc t = t % n := (Nat.mod_eq_of_lt htl).symm
      _ = ((i + n - c₀) % n) % n := hcancel
      _ = (i + n - c₀) % n := Nat.mod_eq_of_lt (Nat.mod_lt _ hpos)

/-- **C2.** Each eviction tick reports one `Eviction` event, sweeps
exactly the shard at the cursor (every other slot of the shard slice is
untouched), and advances the cursor to `(cursor + 1) mod numShards`; over
`numShards` consecutive ticks every shard index is swept exactly once. -/
theorem C2_eviction_round_robin (T : Type) (c : Client T)
    (hrec : c.cfg.metricsRecorder.isSome = true)
    (hcur : c.nextShard < c.shards.length) :
    (∃ s, c.shards[c.nextShard]? = some s ∧
      c.evictionTick = some ({ c with
          shards := c.shards.set c.nextShard s.evictExpired
          nextShard := (c.nextShard + 1) % c.shards.length },
        [MetricsEvent.eviction]) ∧
      ∀ j, j ≠ c.nextShard →
        (c.shards.set c.nextShard s.evictExpired)[j]? = c.shards[j]?) ∧
    ∃ cFin, evictionTicks c c.shards.length =
        some (cFin, (List.range c.shards.length).map
          fun t => (c.nextShard + t) % c.shards.length) ∧
      ∀ i < c.shards.length,
        ∃! t : Nat, ((List.range c.shards.length).map
          fun t => (c.nextShard + t) % c.shards.length)[t]? = some i := by
  constructor
  · refine ⟨c.shards[c.nextShard], List.getElem?_eq_getElem hcur, ?_, ?_⟩
    · unfold Client.evictionTick
      rw [List.getElem?_eq_getElem hcur]
      simp [hrec]
    · intro j hj
      exact List.getElem?_set_ne fun h => hj h.symm
  · obtain ⟨cFin, htr, -, -⟩ :=
      evictionTicks_trace T c.shards.length c hcur
    exact ⟨cFin, htr, fun i hi =>
      mod_shift_exists_unique c.nextShard c.shards.length i hcur hi⟩

/-- Witness for C2 at `sampleClientR` (2 shards, recorder configured). -/
theorem C2_eviction_round_robin_witness :
    ∃ cFin, evictionTicks sampleClientR sampleClientR.shards.length =
        some (cFin, (List.range sampleClientR.shards.length).map
          fun t => (sampleClientR.nextShard + t) % sampleClientR.shards.length) ∧
      ∀ i < sampleClientR.shards.length,
        ∃! t : Nat, ((List.range sampleClientR.shards.length).map
          fun t => (sampleClientR.nextShard + t) %
            sampleClientR.shards.length)[t]? = some i :=
  (C2_eviction_round_robin Nat sampleClientR (by decide) (by decide)).2

end Sturdyc
